import Mathlib

/-!
Verification of the nsCamera sensor readout reconstruction logic
(`nsCamera/sensors/s4.py` and `nsCamera/sensors/hyperion.py`).

The embedding models numpy arrays as lists of rows (`Mat`), a raw capture as a
flat list of pixels, and Python exceptions as `Except Err`:
`Err.reshapeError` models the `ValueError` numpy raises when `np.reshape` is
given a buffer whose size does not match the requested shape, and
`Err.assertError` models the Python `AssertionError` raised by the shape
asserts inside `interlace_arrays`.
-/

namespace NsCamera

/-- Failure modes of `s4.parseReadoff`: a numpy reshape size mismatch
(`ValueError`) or a failed shape assert inside `interlace_arrays`
(`AssertionError`). -/
inductive Err where
  | reshapeError : Err
  | assertError : Err
deriving DecidableEq

/-- A pixel sample; `astype(np.int32)` is modelled by `wrap32`. -/
abbrev Pixel := Int

/-- A 2-D numpy array, as a list of rows. -/
abbrev Mat := List (List Pixel)

/-- `m.shape == (h, w)` for a 2-D array. -/
def hasShape (m : Mat) (h w : Nat) : Bool :=
  m.length == h && m.all (fun row => row.length == w)

/-- Split a list into `n` consecutive chunks of `s` elements each
(`np.split(a, n, axis=1)` acts as `takeGroups n s` on every row, and
`np.reshape` into `n` rows of `s` is `takeGroups n s` on the flat buffer). -/
def takeGroups {α : Type} : Nat → Nat → List α → List (List α)
  | 0, _, _ => []
  | n + 1, s, xs => xs.take s :: takeGroups n s (xs.drop s)

/-- The `for g1, g2 in zip(groups1, groups2): append g1; append g2` loop of
`interlace_arrays`; like Python `zip`, it stops at the shorter list. -/
def interleave {α : Type} : List α → List α → List α
  | [], _ => []
  | _ :: _, [] => []
  | a :: as, b :: bs => a :: b :: interleave as bs

/-- One row of `interlace_arrays`: split both 512-wide rows into 16 groups of
32 columns, interleave the groups, and concatenate along the column axis. -/
def interlaceRow (ra rb : List Pixel) : List Pixel :=
  (interleave (takeGroups 16 32 ra) (takeGroups 16 32 rb)).flatten

/-- `interlace_arrays(array1, array2)` from `s4.parseReadoff` (s4.py lines
198-218): asserts both inputs have shape `(1024, 512)`, splits each into 16
column groups of width 32, interleaves the groups alternately and concatenates
them along the column axis. Since `np.split`/`np.concatenate` on `axis=1` act
row-wise, the result is the row-wise `interlaceRow` over paired rows. -/
def interlace_arrays (a b : Mat) : Except Err Mat :=
  if hasShape a 1024 512 && hasShape b 1024 512 then
    Except.ok (List.zipWith interlaceRow a b)
  else Except.error Err.assertError

/-- Python slice `l[::2]` (every second element starting at index 0);
`l[1::2]` is `everyOther (l.drop 1)`. -/
def everyOther {α : Type} : List α → List α
  | [] => []
  | [x] => [x]
  | x :: _ :: rest => x :: everyOther rest

/-- The geometry attributes of the `s4` sensor object that `parseReadoff`
reads (`self.nframes`, `self.height`, `self.width`). -/
structure S4 where
  nframes : Nat
  height : Nat
  width : Nat
deriving DecidableEq

def s4_minframe : Nat := 0
def s4_maxframe : Nat := 1
def s4_maxwidth : Nat := 512
def s4_maxheight : Nat := 1024

/-- The attribute values assigned in `s4.__init__` (s4.py lines 25-35):
`nframes = maxframe - minframe + 1`, `width = maxwidth`,
`height = maxheight`. -/
def s4_init : S4 :=
  { nframes := s4_maxframe - s4_minframe + 1
    height := s4_maxheight
    width := s4_maxwidth }

/-- `np.reshape(frames, (n, h, w))` on a flat buffer: fails with a
`ValueError` unless the buffer holds exactly `n * h * w` samples. -/
def reshape3 (n h w : Nat) (raw : List Pixel) : Except Err (List Mat) :=
  if raw.length = n * (h * w) then
    Except.ok ((takeGroups n (h * w) raw).map (takeGroups h w))
  else Except.error Err.reshapeError

/-- `arr.reshape((h, w))`: fails with a `ValueError` unless the data holds
exactly `h * w` samples. -/
def reshape2 (h w : Nat) (flat : List Pixel) : Except Err Mat :=
  if flat.length = h * w then Except.ok (takeGroups h w flat)
  else Except.error Err.reshapeError

/-- `astype(np.int32)`: wrap into the signed 32-bit range. -/
def wrap32 (x : Int) : Int := (x + 2 ^ 31) % 2 ^ 32 - 2 ^ 31

/-- The `for first, second in zip(frames[::2], frames[1::2])` loop of
`parseReadoff`: interlace each pair in order, propagating the first
`AssertionError`. -/
def mapInterlace : List (Mat × Mat) → Except Err (List Mat)
  | [] => Except.ok []
  | p :: ps =>
    match interlace_arrays p.1 p.2 with
    | Except.error e => Except.error e
    | Except.ok m =>
      match mapInterlace ps with
      | Except.error e => Except.error e
      | Except.ok ms => Except.ok (m :: ms)

/-- `s4.parseReadoff(frames)` (s4.py lines 193-230): reshape the raw buffer
into `(nframes, height, width)`, interlace consecutive pairs of subframes,
stack the pair results (`np.array(s4_frames)`), reshape the stack into
`(height, 2 * width)` and cast to `int32`. Exceptions abort immediately. -/
def parseReadoff (s : S4) (raw : List Pixel) : Except Err Mat :=
  match reshape3 s.nframes s.height s.width raw with
  | Except.error e => Except.error e
  | Except.ok frames =>
    match mapInterlace ((everyOther frames).zip (everyOther (frames.drop 1))) with
    | Except.error e => Except.error e
    | Except.ok s4_frames =>
      match reshape2 s.height (2 * s.width) ((s4_frames.map List.flatten).flatten) with
      | Except.error e => Except.error e
      | Except.ok out => Except.ok (out.map (fun row => row.map wrap32))

/-- `hyperion.parseReadoff(frames, columns)` (hyperion.py lines 343-349):
a plain delegation to the camera assembly's generic column-partition routine
`self.ca.partition`, which is an external collaborator and therefore a
parameter of the embedding. -/
def hyperion_parseReadoff {F C R : Type} (partition : F → C → R)
    (frames : F) (columns : C) : R :=
  partition frames columns

/-- The pixel at row `r`, column `c` of a 2-D array, if in range. -/
def entry (m : Mat) (r c : Nat) : Option Pixel :=
  m[r]?.bind (fun row => row[c]?)

/-! ### Basic properties of the chunking and interleaving combinators -/

theorem takeGroups_zero {α : Type} (s : Nat) (xs : List α) : takeGroups 0 s xs = [] := rfl

theorem takeGroups_succ {α : Type} (n s : Nat) (xs : List α) :
    takeGroups (n + 1) s xs = xs.take s :: takeGroups n s (xs.drop s) := rfl

theorem takeGroups_length {α : Type} (n s : Nat) (xs : List α) :
    (takeGroups n s xs).length = n := by
  induction n generalizing xs with
  | zero => rfl
  | succ n ih => simp [takeGroups_succ, ih]

theorem takeGroups_cons_of_length {α : Type} (n s : Nat) (l rest : List α)
    (h : l.length = s) :
    takeGroups (n + 1) s (l ++ rest) = l :: takeGroups n s rest := by
  rw [takeGroups_succ, List.take_left' h, List.drop_left' h]

theorem takeGroups_mem_length {α : Type} (n s : Nat) (xs : List α)
    (h : xs.length = n * s) : ∀ g ∈ takeGroups n s xs, g.length = s := by
  induction n generalizing xs with
  | zero => intro g hg; simp [takeGroups_zero] at hg
  | succ n ih =>
    rw [Nat.succ_mul] at h
    intro g hg
    rw [takeGroups_succ] at hg
    rcases List.mem_cons.mp hg with h1 | h2
    · subst h1
      rw [List.length_take, h]
      exact Nat.min_eq_left (Nat.le_add_left s (n * s))
    · exact ih (xs.drop s) (by rw [List.length_drop, h, Nat.add_sub_cancel]) g h2

theorem flatten_takeGroups {α : Type} (n s : Nat) (xs : List α)
    (h : xs.length = n * s) : (takeGroups n s xs).flatten = xs := by
  induction n generalizing xs with
  | zero =>
    have hx : xs = [] := List.length_eq_zero.mp (by rw [h, Nat.zero_mul])
    simp [takeGroups_zero, hx]
  | succ n ih =>
    rw [Nat.succ_mul] at h
    rw [takeGroups_succ, List.flatten_cons,
      ih (xs.drop s) (by rw [List.length_drop, h, Nat.add_sub_cancel]),
      List.take_append_drop]

theorem takeGroups_replicate {α : Type} (n s : Nat) (x : α) :
    takeGroups n s (List.replicate (n * s) x)
      = List.replicate n (List.replicate s x) := by
  induction n with
  | zero => rfl
  | succ n ih =>
    have h1 : (n + 1) * s = s + n * s := by ring
    rw [h1, List.replicate_add,
      takeGroups_cons_of_length _ _ _ _ (List.length_replicate s x), ih,
      List.replicate_succ]

theorem takeGroups_flatten_replicate {α : Type} (n : Nat) (r : List α) :
    takeGroups n r.length (List.replicate n r).flatten = List.replicate n r := by
  induction n with
  | zero => rfl
  | succ n ih =>
    rw [List.replicate_succ, List.flatten_cons,
      takeGroups_cons_of_length _ _ _ _ rfl, ih]

theorem length_flatten_replicate {α : Type} (n : Nat) (r : List α) :
    (List.replicate n r).flatten.length = n * r.length := by
  induction n with
  | zero => simp
  | succ n ih =>
    rw [List.replicate_succ, List.flatten_cons, List.length_append, ih,
      Nat.succ_mul]
    ring

theorem flatten_interleave_replicate {α : Type} (n : Nat) (a b : List α) :
    (interleave (List.replicate n a) (List.replicate n b)).flatten
      = (List.replicate n (a ++ b)).flatten := by
  induction n with
  | zero => rfl
  | succ n ih =>
    simp only [List.replicate_succ, interleave, List.flatten_cons, ih,
      List.append_assoc]

theorem getElem_drop_add {α : Type} (l : List α) (m i : Nat) :
    (l.drop m)[i]? = l[m + i]? := by
  induction m generalizing l with
  | zero => simp
  | succ m ih =>
    cases l with
    | nil => simp
    | cons x xs =>
      rw [List.drop_succ_cons, ih, Nat.succ_add, List.getElem?_cons_succ]

/-! ### Shape facts -/

theorem hasShape_iff (m : Mat) (h w : Nat) :
    hasShape m h w = true ↔ m.length = h ∧ ∀ row ∈ m, row.length = w := by
  simp [hasShape]

theorem hasShape_replicate (h w : Nat) (x : Pixel) :
    hasShape (List.replicate h (List.replicate w x)) h w = true := by
  rw [hasShape_iff]
  refine ⟨List.length_replicate h _, ?_⟩
  intro row hrow
  rw [(List.eq_of_mem_replicate hrow : row = List.replicate w x)]
  exact List.length_replicate w x

theorem hasShape_takeGroups {n s : Nat} (xs : List Pixel)
    (h : xs.length = n * s) : hasShape (takeGroups n s xs) n s = true := by
  rw [hasShape_iff]
  exact ⟨takeGroups_length n s xs, takeGroups_mem_length n s xs h⟩

/-! ### Indexing the interleaved row -/

theorem interleave_cons {α : Type} (a b : α) (as bs : List α) :
    interleave (a :: as) (b :: bs) = a :: b :: interleave as bs := rfl

theorem getElem_append_skip {α : Type} (l rest : List α) (s i : Nat)
    (h : l.length = s) : (l ++ rest)[s + i]? = rest[i]? := by
  rw [List.getElem?_append_right (by omega), h, Nat.add_sub_cancel_left]

theorem flatten_interleave_getElem (s j : Nat) (hj : j < s) :
    ∀ (n g : Nat) (ra rb : List Pixel), ra.length = n * s → rb.length = n * s →
      g < n →
      ((interleave (takeGroups n s ra) (takeGroups n s rb)).flatten)[2 * s * g + j]?
          = ra[s * g + j]? ∧
      ((interleave (takeGroups n s ra) (takeGroups n s rb)).flatten)[2 * s * g + s + j]?
          = rb[s * g + j]? := by
  intro n
  induction n with
  | zero => intro g ra rb _ _ hg; exact absurd hg (Nat.not_lt_zero g)
  | succ n ih =>
    intro g ra rb hra hrb hg
    rw [Nat.succ_mul] at hra hrb
    have hta : (ra.take s).length = s := by rw [List.length_take]; omega
    have htb : (rb.take s).length = s := by rw [List.length_take]; omega
    have hda : (ra.drop s).length = n * s := by rw [List.length_drop]; omega
    have hdb : (rb.drop s).length = n * s := by rw [List.length_drop]; omega
    rw [takeGroups_succ, takeGroups_succ, interleave_cons, List.flatten_cons,
      List.flatten_cons]
    cases g with
    | zero =>
      constructor
      · rw [show 2 * s * 0 + j = j from by ring, show s * 0 + j = j from by ring,
          List.getElem?_append_left (by rw [hta]; exact hj),
          List.getElem?_take_of_lt hj]
      · rw [show 2 * s * 0 + s + j = s + j from by ring,
          show s * 0 + j = j from by ring,
          getElem_append_skip _ _ _ _ hta,
          List.getElem?_append_left (by rw [htb]; exact hj),
          List.getElem?_take_of_lt hj]
    | succ g =>
      obtain ⟨ih1, ih2⟩ := ih g (ra.drop s) (rb.drop s) hda hdb (by omega)
      constructor
      · rw [show 2 * s * (g + 1) + j = s + (s + (2 * s * g + j)) from by ring,
          getElem_append_skip _ _ _ _ hta, getElem_append_skip _ _ _ _ htb, ih1,
          getElem_drop_add,
          show s + (s * g + j) = s * (g + 1) + j from by ring]
      · rw [show 2 * s * (g + 1) + s + j = s + (s + (2 * s * g + s + j)) from by ring,
          getElem_append_skip _ _ _ _ hta, getElem_append_skip _ _ _ _ htb, ih2,
          getElem_drop_add,
          show s + (s * g + j) = s * (g + 1) + j from by ring]

theorem length_flatten_interleave (s : Nat) :
    ∀ (n : Nat) (ra rb : List Pixel), ra.length = n * s → rb.length = n * s →
      ((interleave (takeGroups n s ra) (takeGroups n s rb)).flatten).length
        = n * (2 * s) := by
  intro n
  induction n with
  | zero => intro ra rb _ _; simp [takeGroups_zero, interleave]
  | succ n ih =>
    intro ra rb hra hrb
    rw [Nat.succ_mul] at hra hrb
    have hta : (ra.take s).length = s := by rw [List.length_take]; omega
    have htb : (rb.take s).length = s := by rw [List.length_take]; omega
    rw [takeGroups_succ, takeGroups_succ, interleave_cons, List.flatten_cons,
      List.flatten_cons, List.length_append, List.length_append, hta, htb,
      ih (ra.drop s) (rb.drop s) (by rw [List.length_drop]; omega)
        (by rw [List.length_drop]; omega)]
    ring

theorem interlaceRow_length (ra rb : List Pixel) (ha : ra.length = 512)
    (hb : rb.length = 512) : (interlaceRow ra rb).length = 1024 := by
  have h := length_flatten_interleave 32 16 ra rb (by omega) (by omega)
  simpa [interlaceRow] using h

/-- A 1024x512 subframe with every pixel equal to 1. -/
def aOnes : Mat := List.replicate 1024 (List.replicate 512 (1 : Int))

/-- A 1024x512 subframe with every pixel equal to 2. -/
def bTwos : Mat := List.replicate 1024 (List.replicate 512 (2 : Int))

/-- The frame produced by interlacing `aOnes` with `bTwos`. -/
def outOnesTwos : Mat := List.zipWith interlaceRow aOnes bTwos

theorem interlace_aOnes_bTwos :
    interlace_arrays aOnes bTwos = Except.ok outOnesTwos := by
  unfold interlace_arrays outOnesTwos
  rw [if_pos]
  rw [Bool.and_eq_true]
  exact ⟨hasShape_replicate 1024 512 1, hasShape_replicate 1024 512 2⟩

/-! ### C1 -/

/-- C1: for every pair of subframes (A, B) accepted by `interlace_arrays`
(the valid geometry is the asserted 1024x512 with 16 column groups of width
32), every column group `g < 16` of the output alternates strictly: columns
`64*g .. 64*g+31` are group `g` of A and columns `64*g+32 .. 64*g+63` are
group `g` of B, each group keeping its internal left-to-right order. -/
theorem C1_interlace_alternation (a b out : Mat)
    (hout : interlace_arrays a b = Except.ok out) (r g j : Nat)
    (hr : r < 1024) (hg : g < 16) (hj : j < 32) :
    entry out r (2 * 32 * g + j) = entry a r (32 * g + j) ∧
    entry out r (2 * 32 * g + 32 + j) = entry b r (32 * g + j) := by
  unfold interlace_arrays at hout
  by_cases hc : (hasShape a 1024 512 && hasShape b 1024 512) = true
  case neg =>
    rw [if_neg hc] at hout
    exact absurd hout (by simp)
  rw [if_pos hc] at hout
  rw [Bool.and_eq_true] at hc
  obtain ⟨hsa, hsb⟩ := hc
  rw [hasShape_iff] at hsa hsb
  obtain ⟨hal, har⟩ := hsa
  obtain ⟨hbl, hbr⟩ := hsb
  have hout' : out = List.zipWith interlaceRow a b := by
    injection hout with h
    exact h.symm
  subst hout'
  cases hA : a[r]? with
  | none =>
    rw [List.getElem?_eq_none_iff] at hA
    omega
  | some ra =>
  cases hB : b[r]? with
  | none =>
    rw [List.getElem?_eq_none_iff] at hB
    omega
  | some rb =>
  have hzip : (List.zipWith interlaceRow a b)[r]? = some (interlaceRow ra rb) := by
    rw [List.getElem?_zipWith, hA, hB]
  have hral : ra.length = 512 := har ra (List.getElem?_mem hA)
  have hrbl : rb.length = 512 := hbr rb (List.getElem?_mem hB)
  unfold entry
  rw [hzip, hA, hB, Option.some_bind, Option.some_bind, Option.some_bind]
  have h := flatten_interleave_getElem 32 j hj 16 g ra rb (by omega) (by omega) hg
  simpa [interlaceRow] using h

/-- Witness for C1 at A = all ones, B = all twos, row 0, group 0, offset 0. -/
theorem C1_interlace_alternation_witness :
    entry outOnesTwos 0 (2 * 32 * 0 + 0) = entry aOnes 0 (32 * 0 + 0) ∧
    entry outOnesTwos 0 (2 * 32 * 0 + 32 + 0) = entry bTwos 0 (32 * 0 + 0) :=
  C1_interlace_alternation aOnes bTwos outOnesTwos interlace_aOnes_bTwos 0 0 0
    (by decide) (by decide) (by decide)

/-! ### Stepping lemmas for `parseReadoff` -/

theorem parseReadoff_eq_ok (s : S4) (raw : List Pixel) (frames s4_frames : List Mat)
    (out : Mat)
    (h1 : reshape3 s.nframes s.height s.width raw = Except.ok frames)
    (h2 : mapInterlace ((everyOther frames).zip (everyOther (frames.drop 1)))
        = Except.ok s4_frames)
    (h3 : reshape2 s.height (2 * s.width) ((s4_frames.map List.flatten).flatten)
        = Except.ok out) :
    parseReadoff s raw = Except.ok (out.map (fun row => row.map wrap32)) := by
  unfold parseReadoff
  simp only [h1, h2, h3]

theorem parseReadoff_reshape3_error (s : S4) (raw : List Pixel) (e : Err)
    (h1 : reshape3 s.nframes s.height s.width raw = Except.error e) :
    parseReadoff s raw = Except.error e := by
  unfold parseReadoff
  simp only [h1]

theorem parseReadoff_interlace_error (s : S4) (raw : List Pixel) (frames : List Mat)
    (e : Err)
    (h1 : reshape3 s.nframes s.height s.width raw = Except.ok frames)
    (h2 : mapInterlace ((everyOther frames).zip (everyOther (frames.drop 1)))
        = Except.error e) :
    parseReadoff s raw = Except.error e := by
  unfold parseReadoff
  simp only [h1, h2]

theorem parseReadoff_reshape2_error (s : S4) (raw : List Pixel) (frames s4_frames : List Mat)
    (e : Err)
    (h1 : reshape3 s.nframes s.height s.width raw = Except.ok frames)
    (h2 : mapInterlace ((everyOther frames).zip (everyOther (frames.drop 1)))
        = Except.ok s4_frames)
    (h3 : reshape2 s.height (2 * s.width) ((s4_frames.map List.flatten).flatten)
        = Except.error e) :
    parseReadoff s raw = Except.error e := by
  unfold parseReadoff
  simp only [h1, h2, h3]

theorem mapInterlace_singleton (A B M : Mat)
    (h : interlace_arrays A B = Except.ok M) :
    mapInterlace [(A, B)] = Except.ok [M] := by
  simp only [mapInterlace, h]

/-! ### The reconstruction on constant-valued subframes -/

/-- Pixels per subframe for the hard-coded geometry. -/
def nPix : Nat := 1024 * 512

/-- One reconstructed row for a pair of constant subframes with values `x`
and `y`: 16 repetitions of 32 columns of `x` followed by 32 columns of `y`. -/
def interRowOf (x y : Int) : List Pixel :=
  (List.replicate 16 (List.replicate 32 x ++ List.replicate 32 y)).flatten

theorem interlaceRow_replicate (x y : Int) :
    interlaceRow (List.replicate 512 x) (List.replicate 512 y) = interRowOf x y := by
  unfold interlaceRow interRowOf
  rw [show (512 : Nat) = 16 * 32 from rfl, takeGroups_replicate, takeGroups_replicate,
    flatten_interleave_replicate]

theorem interRowOf_length (x y : Int) : (interRowOf x y).length = 1024 := by
  unfold interRowOf
  rw [length_flatten_replicate]
  simp

theorem interlace_replicate (x y : Int) :
    interlace_arrays (List.replicate 1024 (List.replicate 512 x))
        (List.replicate 1024 (List.replicate 512 y))
      = Except.ok (List.replicate 1024 (interRowOf x y)) := by
  unfold interlace_arrays
  rw [if_pos (by
    rw [Bool.and_eq_true]
    exact ⟨hasShape_replicate _ _ _, hasShape_replicate _ _ _⟩)]
  rw [List.zipWith_replicate', interlaceRow_replicate]

theorem reshape2_flatten_replicate (row : List Pixel) (hlen : row.length = 1024) :
    reshape2 1024 (2 * 512) ((List.replicate 1024 row).flatten)
      = Except.ok (List.replicate 1024 row) := by
  unfold reshape2
  rw [if_pos (by rw [length_flatten_replicate, hlen])]
  rw [show (2 * 512 : Nat) = row.length from by rw [hlen]]
  rw [takeGroups_flatten_replicate]

theorem map_wrap32_interRowOf (x y : Int) :
    (interRowOf x y).map wrap32 = interRowOf (wrap32 x) (wrap32 y) := by
  unfold interRowOf
  rw [List.map_flatten, List.map_replicate, List.map_append, List.map_replicate,
    List.map_replicate]

/-- Reshaping a buffer made of two subframe-sized blocks yields the two
subframes. -/
theorem reshape3_pair (a b : List Pixel) (ha : a.length = nPix)
    (hb : b.length = nPix) :
    reshape3 2 1024 512 (a ++ b)
      = Except.ok [takeGroups 1024 512 a, takeGroups 1024 512 b] := by
  unfold reshape3
  rw [if_pos (by rw [List.length_append, ha, hb]; exact rfl)]
  rw [show (2 : Nat) = 1 + 1 from rfl,
    takeGroups_cons_of_length _ _ _ _ (by rw [ha]; exact rfl),
    takeGroups_succ, takeGroups_zero,
    List.take_of_length_le (by rw [hb]; exact Nat.le_refl _)]
  simp only [List.map_cons, List.map_nil]

theorem takeGroups_replicate_subframe (z : Int) :
    takeGroups 1024 512 (List.replicate nPix z)
      = List.replicate 1024 (List.replicate 512 z) := by
  rw [show nPix = 1024 * 512 from rfl, takeGroups_replicate]

/-- End-to-end reconstruction of one pair of constant-valued subframes:
subframe A all `x`, subframe B all `y`. -/
theorem parseReadoff_two_replicates (x y : Int) :
    parseReadoff s4_init (List.replicate nPix x ++ List.replicate nPix y)
      = Except.ok (List.replicate 1024 (interRowOf (wrap32 x) (wrap32 y))) := by
  have hre : reshape3 s4_init.nframes s4_init.height s4_init.width
      (List.replicate nPix x ++ List.replicate nPix y)
      = Except.ok [List.replicate 1024 (List.replicate 512 x),
          List.replicate 1024 (List.replicate 512 y)] := by
    have hre0 := reshape3_pair (List.replicate nPix x) (List.replicate nPix y)
      (by simp) (by simp)
    rw [takeGroups_replicate_subframe, takeGroups_replicate_subframe] at hre0
    exact hre0
  have hmi : mapInterlace
      ((everyOther [List.replicate 1024 (List.replicate 512 x),
          List.replicate 1024 (List.replicate 512 y)]).zip
        (everyOther ([List.replicate 1024 (List.replicate 512 x),
          List.replicate 1024 (List.replicate 512 y)].drop 1)))
      = Except.ok [List.replicate 1024 (interRowOf x y)] := by
    show mapInterlace [(List.replicate 1024 (List.replicate 512 x),
        List.replicate 1024 (List.replicate 512 y))] = _
    exact mapInterlace_singleton _ _ _ (interlace_replicate x y)
  have hr2 : reshape2 s4_init.height (2 * s4_init.width)
      (([List.replicate 1024 (interRowOf x y)].map List.flatten).flatten)
      = Except.ok (List.replicate 1024 (interRowOf x y)) := by
    show reshape2 1024 (2 * 512) _ = _
    rw [show ([List.replicate 1024 (interRowOf x y)].map List.flatten).flatten
        = (List.replicate 1024 (interRowOf x y)).flatten from by
      rw [List.map_cons, List.map_nil, List.flatten_cons, List.flatten_nil,
        List.append_nil]]
    exact reshape2_flatten_replicate _ (interRowOf_length x y)
  rw [parseReadoff_eq_ok s4_init _ _ _ _ hre hmi hr2]
  simp only [List.map_replicate, map_wrap32_interRowOf]

/-! ### C2 -/

/-- C2 counterexample: on the geometry named by the claim
(height 4, width 4, nframes 2, subframe A all 1s, subframe B all 2s) the code
raises an `AssertionError` from the hard-coded `(1024, 512)` shape assert in
`interlace_arrays` instead of returning the 4-row image
`[[1,1,2,2,1,1,2,2], ...]`. -/
theorem C2_small_geometry_counterexample :
    parseReadoff { nframes := 2, height := 4, width := 4 }
        (List.replicate 16 1 ++ List.replicate 16 2)
      = Except.error Err.assertError ∧
    parseReadoff { nframes := 2, height := 4, width := 4 }
        (List.replicate 16 1 ++ List.replicate 16 2)
      ≠ Except.ok (List.replicate 4 [1, 1, 2, 2, 1, 1, 2, 2]) :=
  ⟨rfl, fun h => nomatch h⟩

/-- C2 (amended): with the geometry the code actually accepts
(height 1024, width 512, group width 32, nframes 2), subframe A all 1s and
subframe B all 2s reconstruct to a 1024-row image in which every row is 16
repetitions of 32 ones followed by 32 twos. -/
theorem C2_constant_pair_reconstruction :
    parseReadoff s4_init (List.replicate nPix 1 ++ List.replicate nPix 2)
      = Except.ok (List.replicate 1024
          ((List.replicate 16
            (List.replicate 32 (1 : Int) ++ List.replicate 32 2)).flatten)) := by
  have h := parseReadoff_two_replicates 1 2
  rw [show wrap32 1 = 1 from by decide, show wrap32 2 = 2 from by decide] at h
  exact h

/-! ### C5 -/

/-- C5: a raw buffer whose length differs from nframes * height * width makes
`parseReadoff` fail at the very first step (the `np.reshape` size check),
before any output is built. -/
theorem C5_length_mismatch_error (s : S4) (raw : List Pixel)
    (hlen : raw.length ≠ s.nframes * (s.height * s.width)) :
    parseReadoff s raw = Except.error Err.reshapeError := by
  apply parseReadoff_reshape3_error
  unfold reshape3
  rw [if_neg hlen]

/-- Witness for C5: a 3-pixel buffer against the S4 geometry. -/
theorem C5_length_mismatch_error_witness :
    parseReadoff s4_init [1, 2, 3] = Except.error Err.reshapeError :=
  C5_length_mismatch_error s4_init [1, 2, 3] (by decide)

/-! ### C6 -/

/-- C6: every successful run of `parseReadoff` returns a matrix with exactly
`height` rows, each of length `2 * width` (for the S4 geometry,
`group_width * (width / group_width) * 2 = 32 * 16 * 2 = 2 * 512`). -/
theorem C6_output_shape (s : S4) (raw : List Pixel) (out : Mat)
    (hout : parseReadoff s raw = Except.ok out) :
    out.length = s.height ∧ ∀ row ∈ out, row.length = 2 * s.width := by
  unfold parseReadoff at hout
  cases h1 : reshape3 s.nframes s.height s.width raw with
  | error e => simp only [h1] at hout; exact nomatch hout
  | ok frames =>
  simp only [h1] at hout
  cases h2 : mapInterlace ((everyOther frames).zip (everyOther (frames.drop 1))) with
  | error e => simp only [h2] at hout; exact nomatch hout
  | ok s4_frames =>
  simp only [h2] at hout
  cases h3 : reshape2 s.height (2 * s.width) ((s4_frames.map List.flatten).flatten) with
  | error e => simp only [h3] at hout; exact nomatch hout
  | ok out0 =>
  simp only [h3] at hout
  have hout0 : out = out0.map (fun row => row.map wrap32) := by
    injection hout with h
    exact h.symm
  subst hout0
  unfold reshape2 at h3
  by_cases hc : ((s4_frames.map List.flatten).flatten).length = s.height * (2 * s.width)
  case neg => rw [if_neg hc] at h3; exact absurd h3 (by simp)
  rw [if_pos hc] at h3
  have h4 : out0 = takeGroups s.height (2 * s.width) ((s4_frames.map List.flatten).flatten) := by
    injection h3 with h
    exact h.symm
  subst h4
  constructor
  · rw [List.length_map, takeGroups_length]
  · intro row hrow
    rw [List.mem_map] at hrow
    obtain ⟨r0, hr0, hrow⟩ := hrow
    rw [← hrow, List.length_map]
    exact takeGroups_mem_length _ _ _ hc r0 hr0

/-- Witness for C6 on the all-1s / all-2s capture. -/
theorem C6_output_shape_witness :
    (List.replicate 1024 (interRowOf (wrap32 1) (wrap32 2))).length = s4_init.height ∧
    ∀ row ∈ List.replicate 1024 (interRowOf (wrap32 1) (wrap32 2)),
      row.length = 2 * s4_init.width :=
  C6_output_shape s4_init (List.replicate nPix 1 ++ List.replicate nPix 2)
    (List.replicate 1024 (interRowOf (wrap32 1) (wrap32 2)))
    (parseReadoff_two_replicates 1 2)

/-! ### C3 -/

/-- Reshaping a buffer made of three subframe-sized blocks yields the three
subframes. -/
theorem reshape3_triple (a b c : List Pixel) (ha : a.length = nPix)
    (hb : b.length = nPix) (hc : c.length = nPix) :
    reshape3 3 1024 512 (a ++ b ++ c)
      = Except.ok [takeGroups 1024 512 a, takeGroups 1024 512 b,
          takeGroups 1024 512 c] := by
  unfold reshape3
  rw [if_pos (by
    rw [List.length_append, List.length_append, ha, hb, hc]; exact rfl)]
  rw [List.append_assoc, show (3 : Nat) = 2 + 1 from rfl,
    takeGroups_cons_of_length _ _ _ _ (by rw [ha]; exact rfl),
    show (2 : Nat) = 1 + 1 from rfl,
    takeGroups_cons_of_length _ _ _ _ (by rw [hb]; exact rfl),
    takeGroups_succ, takeGroups_zero,
    List.take_of_length_le (by rw [hc]; exact Nat.le_refl _)]
  simp only [List.map_cons, List.map_nil]

/-- With three subframes, `zip(frames[::2], frames[1::2])` pairs subframes 0
and 1 and silently drops subframe 2, so the result is exactly that of the
two-subframe run. -/
theorem parse_discard_third (a b c : List Pixel) (ha : a.length = nPix)
    (hb : b.length = nPix) (hc : c.length = nPix) :
    parseReadoff { nframes := 3, height := 1024, width := 512 } (a ++ b ++ c)
      = parseReadoff { nframes := 2, height := 1024, width := 512 } (a ++ b) := by
  have h3 := reshape3_triple a b c ha hb hc
  have h2 := reshape3_pair a b ha hb
  unfold parseReadoff
  simp only [h3, h2, everyOther, List.drop_succ_cons, List.drop_zero,
    List.zip_cons_cons, List.zip_nil_right]

/-- C3 counterexample: with nframes = 3 and a matching buffer (subframes all
1s, 2s, 3s), `parseReadoff` raises no error at all: it returns the interlace
of subframes 0 and 1 and silently discards subframe 2 — no
`InvalidFrameCountError` exists anywhere in the code. -/
theorem C3_odd_nframes_counterexample :
    parseReadoff { nframes := 3, height := 1024, width := 512 }
        (List.replicate nPix 1 ++ List.replicate nPix 2 ++ List.replicate nPix 3)
      = Except.ok (List.replicate 1024
          ((List.replicate 16
            (List.replicate 32 (1 : Int) ++ List.replicate 32 2)).flatten)) := by
  rw [parse_discard_third _ _ _ (by simp) (by simp) (by simp)]
  have h := parseReadoff_two_replicates 1 2
  rw [show wrap32 1 = 1 from by decide, show wrap32 2 = 2 from by decide] at h
  exact h

/-- C3 (amended): an odd frame count of 3 is not rejected; the pairing loop
silently discards the last subframe, and the result is identical to running
on the first two subframes alone. -/
theorem C3_silent_subframe_discard (a b c : List Pixel) (ha : a.length = nPix)
    (hb : b.length = nPix) (hc : c.length = nPix) :
    parseReadoff { nframes := 3, height := 1024, width := 512 } (a ++ b ++ c)
      = parseReadoff { nframes := 2, height := 1024, width := 512 } (a ++ b) :=
  parse_discard_third a b c ha hb hc

/-- Witness for the amended C3 on concrete constant subframes. -/
theorem C3_silent_subframe_discard_witness :
    parseReadoff { nframes := 3, height := 1024, width := 512 }
        (List.replicate nPix 4 ++ List.replicate nPix 5 ++ List.replicate nPix 6)
      = parseReadoff { nframes := 2, height := 1024, width := 512 }
        (List.replicate nPix 4 ++ List.replicate nPix 5) :=
  C3_silent_subframe_discard _ _ _ (by simp) (by simp) (by simp)

/-! ### C4 -/

theorem interlace_arrays_ok (A B : Mat) (hA : hasShape A 1024 512 = true)
    (hB : hasShape B 1024 512 = true) :
    interlace_arrays A B = Except.ok (List.zipWith interlaceRow A B) := by
  unfold interlace_arrays
  rw [if_pos (by rw [Bool.and_eq_true]; exact ⟨hA, hB⟩)]

theorem mapInterlace_pair_ok (A B C D M1 M2 : Mat)
    (h1 : interlace_arrays A B = Except.ok M1)
    (h2 : interlace_arrays C D = Except.ok M2) :
    mapInterlace [(A, B), (C, D)] = Except.ok [M1, M2] := by
  simp only [mapInterlace, h1, h2]

theorem flatten_zipWith_interlaceRow_length (A : Mat) :
    ∀ (B : Mat), (∀ ra ∈ A, ra.length = 512) → (∀ rb ∈ B, rb.length = 512) →
      ((List.zipWith interlaceRow A B).flatten).length
        = 1024 * min A.length B.length := by
  induction A with
  | nil => intro B _ _; simp
  | cons ra A ih =>
    intro B hA hB
    cases B with
    | nil => simp
    | cons rb B =>
      rw [List.zipWith_cons_cons, List.flatten_cons, List.length_append,
        interlaceRow_length ra rb (hA ra (List.mem_cons_self _ _))
          (hB rb (List.mem_cons_self _ _)),
        ih B (fun r hr => hA r (List.mem_cons_of_mem _ hr))
          (fun r hr => hB r (List.mem_cons_of_mem _ hr)),
        List.length_cons, List.length_cons]
      omega

/-- With four subframes the pairing loop produces two interlaced 1024x1024
frames, and the final reshape to `(height, 2 * width)` then fails: two pair
results hold twice as many pixels as that shape. The code never concatenates
pair results into a wide image. -/
theorem parse_four_frames_reshape_error (raw : List Pixel)
    (hlen : raw.length = 4 * (1024 * 512)) :
    parseReadoff { nframes := 4, height := 1024, width := 512 } raw
      = Except.error Err.reshapeError := by
  have hl0 : (raw.take (1024 * 512)).length = 1024 * 512 := by
    rw [List.length_take, hlen]; omega
  have hl1 : ((raw.drop (1024 * 512)).take (1024 * 512)).length = 1024 * 512 := by
    rw [List.length_take, List.length_drop, hlen]; omega
  have hl2 : (((raw.drop (1024 * 512)).drop (1024 * 512)).take (1024 * 512)).length
      = 1024 * 512 := by
    rw [List.length_take, List.length_drop, List.length_drop, hlen]; omega
  have hl3 : ((((raw.drop (1024 * 512)).drop (1024 * 512)).drop (1024 * 512)).take
      (1024 * 512)).length = 1024 * 512 := by
    rw [List.length_take, List.length_drop, List.length_drop, List.length_drop,
      hlen]
    omega
  have hq : reshape3 4 1024 512 raw
      = Except.ok [takeGroups 1024 512 (raw.take (1024 * 512)),
          takeGroups 1024 512 ((raw.drop (1024 * 512)).take (1024 * 512)),
          takeGroups 1024 512 (((raw.drop (1024 * 512)).drop (1024 * 512)).take
            (1024 * 512)),
          takeGroups 1024 512 ((((raw.drop (1024 * 512)).drop
            (1024 * 512)).drop (1024 * 512)).take (1024 * 512))] := by
    unfold reshape3
    rw [if_pos (by rw [hlen])]
    rfl
  have hs0 := hasShape_takeGroups (n := 1024) (s := 512) _ hl0
  have hs1 := hasShape_takeGroups (n := 1024) (s := 512) _ hl1
  have hs2 := hasShape_takeGroups (n := 1024) (s := 512) _ hl2
  have hs3 := hasShape_takeGroups (n := 1024) (s := 512) _ hl3
  have hi01 := interlace_arrays_ok _ _ hs0 hs1
  have hi23 := interlace_arrays_ok _ _ hs2 hs3
  have hml := mapInterlace_pair_ok _ _ _ _ _ _ hi01 hi23
  apply parseReadoff_reshape2_error _ _ _ _ _ hq
  · exact hml
  · unfold reshape2
    rw [if_neg]
    intro habs
    rw [List.map_cons, List.map_cons, List.map_nil, List.flatten_cons,
      List.flatten_cons, List.flatten_nil, List.append_nil,
      List.length_append] at habs
    rw [flatten_zipWith_interlaceRow_length _ _
        (takeGroups_mem_length _ _ _ hl0) (takeGroups_mem_length _ _ _ hl1),
      flatten_zipWith_interlaceRow_length _ _
        (takeGroups_mem_length _ _ _ hl2) (takeGroups_mem_length _ _ _ hl3),
      takeGroups_length, takeGroups_length, takeGroups_length,
      takeGroups_length, Nat.min_self] at habs
    norm_num at habs

/-- C4 counterexample: `s4.__init__` fixes `nframes = 2`, and on a four-
subframe buffer the reconstructor aborts with a reshape error instead of
returning a `height x (4 * width)` image. -/
theorem C4_no_wide_concatenation_counterexample :
    s4_init.nframes = 2 ∧
    parseReadoff { nframes := 4, height := 1024, width := 512 }
        (List.replicate (4 * (1024 * 512)) 7) = Except.error Err.reshapeError :=
  ⟨rfl, parse_four_frames_reshape_error _ (by rw [List.length_replicate])⟩

/-- C4 (amended): the S4 code supports a single pair only; with nframes = 4
and a matching buffer the final reshape fails and no wide image is
produced. -/
theorem C4_four_frames_fail (raw : List Pixel)
    (hlen : raw.length = 4 * (1024 * 512)) :
    parseReadoff { nframes := 4, height := 1024, width := 512 } raw
      = Except.error Err.reshapeError :=
  parse_four_frames_reshape_error raw hlen

/-- Witness for the amended C4. -/
theorem C4_four_frames_fail_witness :
    parseReadoff { nframes := 4, height := 1024, width := 512 }
        (List.replicate (4 * (1024 * 512)) 0) = Except.error Err.reshapeError :=
  C4_four_frames_fail _ (by rw [List.length_replicate])

/-! ### C7 -/

theorem reshape3_two_generic (h w : Nat) (raw : List Pixel)
    (hlen : raw.length = 2 * (h * w)) :
    reshape3 2 h w raw
      = Except.ok [takeGroups h w (raw.take (h * w)),
          takeGroups h w ((raw.drop (h * w)).take (h * w))] := by
  unfold reshape3
  rw [if_pos hlen]
  rfl

theorem interlace_arrays_assert (A B : Mat)
    (hA : ¬(hasShape A 1024 512 = true)) :
    interlace_arrays A B = Except.error Err.assertError := by
  unfold interlace_arrays
  rw [if_neg]
  intro hcond
  rw [Bool.and_eq_true] at hcond
  exact hA hcond.1

theorem mapInterlace_single_error (A B : Mat) (e : Err)
    (h : interlace_arrays A B = Except.error e) :
    mapInterlace [(A, B)] = Except.error e := by
  simp only [mapInterlace, h]

/-- A reshaped subframe of any geometry other than 1024x512 fails the
hard-coded shape assert of `interlace_arrays`. -/
theorem hasShape_takeGroups_ne (h w : Nat) (l : List Pixel)
    (hl : l.length = h * w) (hne : ¬(h = 1024 ∧ w = 512)) :
    ¬(hasShape (takeGroups h w l) 1024 512 = true) := by
  intro hs
  rw [hasShape_iff] at hs
  obtain ⟨hlen1024, hrows⟩ := hs
  rw [takeGroups_length] at hlen1024
  subst hlen1024
  have hne' : (takeGroups 1024 w l) ≠ [] := by
    intro hnil
    have := takeGroups_length 1024 w l
    rw [hnil] at this
    exact absurd this.symm (by norm_num)
  obtain ⟨row, hrow⟩ := List.exists_mem_of_ne_nil _ hne'
  have h1 : row.length = w := takeGroups_mem_length _ _ _ hl row hrow
  have h2 : row.length = 512 := hrows row hrow
  exact hne ⟨rfl, by omega⟩

/-- C7: for any geometry other than the hard-coded 1024x512 — even one
meeting every precondition stated in the spec (matching buffer length, even
frame count, width divisible by the group width) — `parseReadoff` dies with
the `AssertionError` from `interlace_arrays`. -/
theorem C7_hardcoded_shape_assert (h w : Nat) (raw : List Pixel)
    (hne : ¬(h = 1024 ∧ w = 512)) (hlen : raw.length = 2 * (h * w))
    (_hdvd : w % 32 = 0) :
    parseReadoff { nframes := 2, height := h, width := w } raw
      = Except.error Err.assertError := by
  have hl0 : (raw.take (h * w)).length = h * w := by
    rw [List.length_take, hlen]
    omega
  have hq := reshape3_two_generic h w raw hlen
  apply parseReadoff_interlace_error _ _ _ _ hq
  show mapInterlace [(takeGroups h w (raw.take (h * w)),
      takeGroups h w ((raw.drop (h * w)).take (h * w)))] = _
  exact mapInterlace_single_error _ _ _
    (interlace_arrays_assert _ _ (hasShape_takeGroups_ne h w _ hl0 hne))

/-- Witness for C7: height 4, width 32 (divisible by the group width 32),
correct buffer length, even frame count — still an assertion failure. -/
theorem C7_hardcoded_shape_assert_witness :
    parseReadoff { nframes := 2, height := 4, width := 32 }
        (List.replicate 256 9) = Except.error Err.assertError :=
  C7_hardcoded_shape_assert 4 32 (List.replicate 256 9) (by decide)
    (by rw [List.length_replicate]) (by decide)

/-! ### C8 -/

/-- C8: the Hyperion `parseReadoff` performs no interleaving of its own; for
every partition routine and every input it returns exactly
`ca.partition(frames, columns)`. -/
theorem C8_hyperion_delegates :
    ∀ (F C R : Type) (partition : F → C → R) (frames : F) (columns : C),
      hyperion_parseReadoff partition frames columns = partition frames columns :=
  fun _ _ _ _ _ _ => rfl

/-! ### C9 -/

/-- C9: splitting a frame of width `w` divisible by `gw` into `w / gw` column
groups of width `gw` and concatenating them back in their original order
reproduces the frame exactly. -/
theorem C9_split_concat_id (frame : Mat) (h w gw : Nat)
    (hshape : hasShape frame h w = true) (hdvd : w % gw = 0) :
    frame.map (fun row => (takeGroups (w / gw) gw row).flatten) = frame := by
  rw [hasShape_iff] at hshape
  obtain ⟨hlen, hrows⟩ := hshape
  conv_rhs => rw [← List.map_id frame]
  apply List.map_congr_left
  intro row hrow
  have hrlen : row.length = (w / gw) * gw := by
    rw [hrows row hrow, Nat.div_mul_cancel (Nat.dvd_of_mod_eq_zero hdvd)]
  rw [flatten_takeGroups _ _ _ hrlen]
  rfl

/-- Witness for C9 on a 2x4 frame with group width 2. -/
theorem C9_split_concat_id_witness :
    ([[1, 2, 3, 4], [5, 6, 7, 8]] : Mat).map
        (fun row => (takeGroups (4 / 2) 2 row).flatten)
      = [[1, 2, 3, 4], [5, 6, 7, 8]] :=
  C9_split_concat_id [[1, 2, 3, 4], [5, 6, 7, 8]] 2 4 2 (by decide) (by decide)

end NsCamera
